import Mathlib

/-!
Shallow embedding of `sample.py` (candlestick-pattern scanner).

Modelling conventions:
* Prices are rationals (`ℚ`).  A cell of the downloaded frame is an
  `Option ℚ`: it holds the value of the cell *after* the
  `pd.to_numeric(..., errors='coerce')` step, `none` standing for NaN /
  an unconvertible value.
* The downloaded frame (`yf.download` result) is a `RawFrame`: a date
  index (dates already rendered as `YYYY-MM-DD` strings, which is how the
  code itself renders them via `strftime`) plus named columns.
* TA-Lib is the external pattern engine.  It is a parameter
  `Talib : String → Option PatternFn`; `none` models
  `getattr(talib, name, None)` failing, and a `PatternFn` maps the four
  OHLC series to the integer code series of the pattern.
* Python `round(x, 2)` is modelled exactly on rationals: round half to
  even at two decimals (`round2`).
* The source field name `Type` is a Lean keyword, so the `Event`
  structure calls it `Type'`; `Closing Price` becomes `ClosingPrice`.
-/

namespace ShareMarket

/-- A cell of the downloaded frame after numeric coercion
(`pd.to_numeric(..., errors='coerce')`): `none` is NaN/unconvertible. -/
abbrev Cell := Option ℚ

/-- The frame returned by `yf.download`: a date index and named columns. -/
structure RawFrame where
  dates : List String
  cols : List (String × List Cell)

/-- `data.empty` in pandas: true when either axis has length zero. -/
def RawFrame.empty (f : RawFrame) : Bool :=
  f.dates.isEmpty || f.cols.isEmpty

/-- Python `str.upper()`: uppercase every character (the unfolding of
`String.toUpper`, written out so that it evaluates). -/
def strUpper (s : String) : String := String.mk (s.data.map Char.toUpper)

/-- Lines 20–26 of `sample.py`: standardize column names to uppercase. -/
def standardizeColumns (f : RawFrame) : RawFrame :=
  { f with cols := f.cols.map (fun c => (strUpper c.1, c.2)) }

/-- Line 29: `required_columns = ['OPEN', 'HIGH', 'LOW', 'CLOSE', 'VOLUME']`. -/
def required_columns : List String := ["OPEN", "HIGH", "LOW", "CLOSE", "VOLUME"]

/-- Line 31: `all(col in data.columns for col in required_columns)`. -/
def hasRequiredColumns (f : RawFrame) : Bool :=
  required_columns.all (fun c => (f.cols.map (fun p => p.1)).contains c)

/-- Value of column `name` at row `i` (first matching column, as
`data[name]` resolves a label). -/
def getCell (f : RawFrame) (name : String) (i : ℕ) : Option ℚ :=
  match f.cols.lookup name with
  | none => none
  | some col => (col[i]?).join

/-- One row of the standardized frame before `dropna`. -/
structure RawBarRow where
  date : String
  OPEN : Option ℚ
  HIGH : Option ℚ
  LOW : Option ℚ
  CLOSE : Option ℚ
  VOLUME : Option ℚ
deriving DecidableEq

/-- One valid bar surviving `dropna(subset=['OPEN','HIGH','LOW','CLOSE'])`:
the four price fields are present, volume may still be absent. -/
structure Bar where
  date : String
  OPEN : ℚ
  HIGH : ℚ
  LOW : ℚ
  CLOSE : ℚ
  VOLUME : Option ℚ
deriving DecidableEq

/-- The rows of a (standardized) frame. -/
def rawRows (f : RawFrame) : List RawBarRow :=
  (List.range f.dates.length).map (fun i =>
    { date := (f.dates[i]?).getD ""
      OPEN := getCell f "OPEN" i
      HIGH := getCell f "HIGH" i
      LOW := getCell f "LOW" i
      CLOSE := getCell f "CLOSE" i
      VOLUME := getCell f "VOLUME" i })

/-- Line 67: a row survives `dropna(subset=['OPEN','HIGH','LOW','CLOSE'])`
iff its four price cells are all present; volume is not consulted. -/
def cleanRow (r : RawBarRow) : Option Bar :=
  match r.OPEN, r.HIGH, r.LOW, r.CLOSE with
  | some o, some h, some l, some c => some ⟨r.date, o, h, l, c, r.VOLUME⟩
  | _, _, _, _ => none

/-- The valid bars of the input frame: standardize, coerce, drop bad rows. -/
def cleanBars (f : RawFrame) : List Bar :=
  (rawRows (standardizeColumns f)).filterMap cleanRow

/-- A TA-Lib pattern function: four OHLC series in, integer codes out. -/
abbrev PatternFn := List ℚ → List ℚ → List ℚ → List ℚ → List ℤ

/-- The external TA-Lib module: `getattr(talib, name, None)`. -/
abbrev Talib := String → Option PatternFn

/-- Lines 37–55: the 17 recognized patterns, in dictionary order. -/
def candlestick_patterns : List (String × String) :=
  [("CDLDOJI", "Doji"),
   ("CDLHAMMER", "Hammer"),
   ("CDLINVERTEDHAMMER", "Inverted Hammer"),
   ("CDLMORNINGSTAR", "Morning Star"),
   ("CDLEVENINGSTAR", "Evening Star"),
   ("CDLENGULFING", "Engulfing"),
   ("CDLPIERCING", "Piercing Pattern"),
   ("CDLDARKCLOUDCOVER", "Dark Cloud Cover"),
   ("CDLHARAMI", "Harami"),
   ("CDLHARAMICROSS", "Harami Cross"),
   ("CDL3WHITESOLDIERS", "Three White Soldiers"),
   ("CDL3BLACKCROWS", "Three Black Crows"),
   ("CDLDRAGONFLYDOJI", "Dragonfly Doji"),
   ("CDLGRAVESTONEDOJI", "Gravestone Doji"),
   ("CDLMARUBOZU", "Marubozu"),
   ("CDLSHOOTINGSTAR", "Shooting Star"),
   ("CDLHANGINGMAN", "Hanging Man")]

/-- Python `round` to an integer: round half to even (banker's rounding). -/
def pyRoundInt (x : ℚ) : ℤ :=
  let n := Rat.floor x
  let r := x - n
  if r < 1 / 2 then n
  else if 1 / 2 < r then n + 1
  else if n % 2 = 0 then n else n + 1

/-- Line 101: `round(closing_price, 2)`. -/
def round2 (x : ℚ) : ℚ := (pyRoundInt (x * 100) : ℚ) / 100

/-- Lines 89–95: the recommendation derived from the pattern type. -/
def recommendationFor (pattern_type : String) : String :=
  if pattern_type = "Bullish" then "Consider Buy"
  else if pattern_type = "Bearish" then "Consider Sell"
  else "Neutral"

/-- One detected-pattern record (lines 97–104).  The source dict keys
`Type` and `Closing Price` become `Type'` and `ClosingPrice`. -/
structure Event where
  Date : String
  Pattern : String
  Type' : String
  ClosingPrice : ℚ
  Recommendation : String
  Value : ℤ
deriving DecidableEq

/-- Lines 82–104: the record appended for one nonzero pattern value. -/
def mkEvent (pattern_name : String) (b : Bar) (val : ℤ) : Event :=
  let pattern_type := if val > 0 then "Bullish" else "Bearish"
  { Date := b.date
    Pattern := pattern_name
    Type' := pattern_type
    ClosingPrice := round2 b.CLOSE
    Recommendation := recommendationFor pattern_type
    Value := val }

/-- Lines 79–104: the events one pattern contributes — one per bar whose
code is nonzero (`pattern_result[pattern_result != 0]`). -/
def patternEvents (pattern_name : String) (bars : List Bar) (codes : List ℤ) :
    List Event :=
  (bars.zip codes).filterMap (fun bc =>
    if bc.2 ≠ 0 then some (mkEvent pattern_name bc.1 bc.2) else none)

/-- Lines 73–106: the full scan over all 17 patterns, in order; a pattern
whose TA-Lib function is missing is skipped with a warning. -/
def detectedPatterns (talib : Talib) (bars : List Bar) : List Event :=
  (candlestick_patterns.map (fun p =>
    match talib p.1 with
    | none => []
    | some g =>
        patternEvents p.2 bars
          (g (bars.map Bar.OPEN) (bars.map Bar.HIGH)
             (bars.map Bar.LOW) (bars.map Bar.CLOSE)))).flatten

/-- The sort key of line 110: ascending `Date`. -/
def dateLe (a b : Event) : Prop := a.Date ≤ b.Date

instance : DecidableRel dateLe :=
  fun a b => inferInstanceAs (Decidable (a.Date ≤ b.Date))

instance : IsTotal Event dateLe := ⟨fun a b => le_total a.Date b.Date⟩

instance : IsTrans Event dateLe := ⟨fun _ _ _ h1 h2 => le_trans h1 h2⟩

/-- The dedup key of line 111: `subset=['Date', 'Pattern']`. -/
def eventKey (e : Event) : String × String := (e.Date, e.Pattern)

/-- `drop_duplicates(keep='first')`: keep a row iff its key was not seen
on an earlier row. -/
def drop_duplicates_from (seen : List (String × String)) :
    List Event → List Event
  | [] => []
  | e :: es =>
      if eventKey e ∈ seen then drop_duplicates_from seen es
      else e :: drop_duplicates_from (eventKey e :: seen) es

/-- Line 111: `drop_duplicates(subset=['Date','Pattern'], keep='first')`. -/
def drop_duplicates (l : List Event) : List Event :=
  drop_duplicates_from [] l

/-- Line 110 applied to the scan result: `sort_values(by="Date")`. -/
def sorted_detected (data : RawFrame) (talib : Talib) : List Event :=
  List.insertionSort dateLe (detectedPatterns talib (cleanBars data))

/-- Lines 5–119: `get_candlestick_patterns`, with the downloaded frame and
the TA-Lib module as explicit inputs.  Returns `none` exactly where the
source returns `None`. -/
def get_candlestick_patterns (data : RawFrame) (talib : Talib) :
    Option (List Event) :=
  if data.empty then none
  else if !hasRequiredColumns (standardizeColumns data) then none
  else if (cleanBars data).length < 2 then none
  else if (detectedPatterns talib (cleanBars data)).isEmpty then none
  else some (drop_duplicates (sorted_detected data talib))

/-- A cell of the result table handed to `save_patterns_to_excel`
(strings, rounded prices, raw integer codes). -/
inductive XCell where
  | s (v : String)
  | q (v : ℚ)
  | z (v : ℤ)
deriving DecidableEq

/-- A pandas DataFrame as a list of named columns. -/
structure DFrame where
  cols : List (String × List XCell)
deriving DecidableEq

/-- Number of rows (length of the first column, frames being rectangular). -/
def DFrame.nrows (d : DFrame) : ℕ :=
  ((d.cols.head?).map (fun c => c.2.length)).getD 0

/-- `df.empty`: true when either axis has length zero. -/
def DFrame.isEmpty (d : DFrame) : Bool :=
  d.cols.isEmpty || d.nrows == 0

/-- The column labels of a frame. -/
def colNames (d : DFrame) : List String := d.cols.map (fun p => p.1)

/-- Line 140: `df_to_save.insert(0, "Company", company_name)` — insert a
broadcast scalar column at position 0.  pandas raises `ValueError` when a
column of that name already exists (`allow_duplicates` defaults to
`False`); that failure is `none`. -/
def DFrame.insertScalar (d : DFrame) (name : String) (v : XCell) :
    Option DFrame :=
  if (colNames d).contains name then none
  else some ⟨(name, List.replicate d.nrows v) :: d.cols⟩

/-- Lines 144–145: drop the `Value` column when present (dropping every
column with that label, as `drop(columns=['Value'])` does). -/
def DFrame.dropCol (d : DFrame) (name : String) : DFrame :=
  ⟨d.cols.filter (fun c => c.1 ≠ name)⟩

/-- Python `str.strip()`: remove leading and trailing whitespace. -/
def pyStrip (s : String) : String :=
  String.mk
    (((s.data.dropWhile Char.isWhitespace).reverse.dropWhile
        Char.isWhitespace).reverse)

/-- Line 133: keep only alphanumeric characters and spaces, then strip. -/
def safe_company_name (company_name : String) : String :=
  pyStrip (String.mk (company_name.data.filter
    (fun c => c.isAlphanum || c = ' ')))

/-- Line 134: keep only alphanumeric characters, then strip. -/
def safe_ticker_symbol (ticker_symbol : String) : String :=
  pyStrip (String.mk (ticker_symbol.data.filter (fun c => c.isAlphanum)))

/-- Line 136: the exported filename.  The source parameter
`filename_prefix` is named `pfx` here (`prefix` is reserved notation). -/
def excelFilename (pfx company_name ticker_symbol : String) : String :=
  pfx ++ "_" ++ safe_company_name company_name ++ "_" ++
    safe_ticker_symbol ticker_symbol ++ ".xlsx"

/-- Lines 121–151: `save_patterns_to_excel` as a pure function.  The
result is the persisted artifact: the filename and the table written by
`to_excel`, or `none` when nothing is saved (absent/empty input frame, or
the uncaught `insert` failure on a pre-existing `Company` column). -/
def save_patterns_to_excel (df : Option DFrame)
    (company_name ticker_symbol pfx : String) : Option (String × DFrame) :=
  match df with
  | none => none
  | some d =>
      if d.isEmpty then none
      else
        match d.insertScalar "Company" (XCell.s company_name) with
        | none => none
        | some d2 =>
            some (excelFilename pfx company_name ticker_symbol,
                  d2.dropCol "Value")

/-- A heap of frame objects; a reference is an index into it. -/
abbrev Heap := List DFrame

/-- `save_patterns_to_excel` with the object graph explicit, to track
which frame objects the call mutates.  `df` is a reference into the heap
(the caller's DataFrame object).  `df.copy()` allocates a fresh object;
`insert` mutates that copy in place; the `drop` rebinds `df_to_save` to a
further fresh object.  Returns the final heap and the persisted artifact. -/
def save_patterns_to_excel_heap (h : Heap) (df : ℕ)
    (company_name ticker_symbol pfx : String) :
    Heap × Option (String × DFrame) :=
  match h[df]? with
  | none => (h, none)
  | some d =>
      if d.isEmpty then (h, none)
      else
        let h1 := h ++ [d]
        let df_to_save := h.length
        match d.insertScalar "Company" (XCell.s company_name) with
        | none => (h1, none)
        | some d2 =>
            let h2 := h1.set df_to_save d2
            let h3 := h2 ++ [d2.dropCol "Value"]
            (h3, some (excelFilename pfx company_name ticker_symbol,
                       d2.dropCol "Value"))

/-- A concrete two-bar downloaded frame whose second bar is 2024-03-05
with closing price 150.005 (as in the spec's Variant B example). -/
def exampleFrame : RawFrame :=
  { dates := ["2024-03-04", "2024-03-05"]
    cols := [("Open", [some 149, some 150]),
             ("High", [some 151, some 151]),
             ("Low", [some 148, some 149]),
             ("Close", [some (1495 / 10), some (150005 / 1000)]),
             ("Volume", [some 1000, some 1200])] }

/-- A concrete TA-Lib engine: `CDLHAMMER` fires with code 100 on the
second bar, every other pattern function returns all zeros. -/
def exampleTalib : Talib := fun name =>
  if name = "CDLHAMMER" then some (fun _ _ _ _ => [0, 100])
  else some (fun o _ _ _ => o.map (fun _ => 0))

/-- The single event the example frame produces. -/
def exampleEvent : Event :=
  { Date := "2024-03-05"
    Pattern := "Hammer"
    Type' := "Bullish"
    ClosingPrice := 150
    Recommendation := "Consider Buy"
    Value := 100 }

/-! ### Helper lemmas about the dedup pass -/

theorem drop_duplicates_from_sublist (seen : List (String × String)) :
    ∀ l : List Event, List.Sublist (drop_duplicates_from seen l) l := by
  intro l
  induction l generalizing seen with
  | nil => exact List.Sublist.refl _
  | cons e es ih =>
      simp only [drop_duplicates_from]
      split
      · exact (ih seen).trans (List.sublist_cons_self e es)
      · exact (ih (eventKey e :: seen)).cons₂ e

theorem mem_of_mem_drop_duplicates_from {seen : List (String × String)}
    {l : List Event} {e : Event} (h : e ∈ drop_duplicates_from seen l) :
    e ∈ l :=
  (drop_duplicates_from_sublist seen l).subset h

theorem key_not_seen_of_mem_drop_duplicates_from :
    ∀ (l : List Event) (seen : List (String × String)) (e : Event),
      e ∈ drop_duplicates_from seen l → eventKey e ∉ seen := by
  intro l
  induction l with
  | nil => intro seen e h; simp [drop_duplicates_from] at h
  | cons a es ih =>
      intro seen e h
      simp only [drop_duplicates_from] at h
      split at h
      · exact ih seen e h
      · rcases List.mem_cons.mp h with rfl | h
        · assumption
        · intro hmem
          exact ih (eventKey a :: seen) e h (List.mem_cons_of_mem _ hmem)

theorem find?_of_mem_drop_duplicates_from :
    ∀ (l : List Event) (seen : List (String × String)) (e : Event),
      e ∈ drop_duplicates_from seen l →
      l.find? (fun x => decide (eventKey x = eventKey e)) = some e := by
  intro l
  induction l with
  | nil => intro seen e h; simp [drop_duplicates_from] at h
  | cons a es ih =>
      intro seen e h
      simp only [drop_duplicates_from] at h
      split at h
      · rename_i hseen
        have hne : eventKey a ≠ eventKey e := by
          intro hk
          exact key_not_seen_of_mem_drop_duplicates_from es seen e h (hk ▸ hseen)
        rw [List.find?_cons_of_neg _ (by simpa using hne)]
        exact ih seen e h
      · rcases List.mem_cons.mp h with rfl | h
        · exact List.find?_cons_of_pos _ (by simp)
        · have hne : eventKey a ≠ eventKey e := by
            intro hk
            exact key_not_seen_of_mem_drop_duplicates_from es
              (eventKey a :: seen) e h (hk ▸ List.mem_cons_self _ _)
          rw [List.find?_cons_of_neg _ (by simpa using hne)]
          exact ih (eventKey a :: seen) e h

theorem pairwise_key_drop_duplicates_from :
    ∀ (l : List Event) (seen : List (String × String)),
      (drop_duplicates_from seen l).Pairwise
        (fun a b => eventKey a ≠ eventKey b) := by
  intro l
  induction l with
  | nil => intro seen; simp [drop_duplicates_from]
  | cons a es ih =>
      intro seen
      simp only [drop_duplicates_from]
      split
      · exact ih seen
      · refine List.pairwise_cons.mpr ⟨?_, ih (eventKey a :: seen)⟩
        intro b hb hk
        exact key_not_seen_of_mem_drop_duplicates_from es (eventKey a :: seen)
          b hb (hk ▸ List.mem_cons_self _ _)

theorem key_covered_drop_duplicates_from :
    ∀ (l : List Event) (seen : List (String × String)) (e : Event), e ∈ l →
      eventKey e ∈ seen ∨
      ∃ d ∈ drop_duplicates_from seen l, eventKey d = eventKey e := by
  intro l
  induction l with
  | nil => intro seen e h; simp at h
  | cons a es ih =>
      intro seen e h
      simp only [drop_duplicates_from]
      rcases List.mem_cons.mp h with rfl | h
      · by_cases hseen : eventKey e ∈ seen
        · exact Or.inl hseen
        · exact Or.inr ⟨e, by simp [hseen], rfl⟩
      · split
        · exact ih seen e h
        · rename_i hseen
          rcases ih (eventKey a :: seen) e h with hs | ⟨d, hd, hk⟩
          · rcases List.mem_cons.mp hs with hk | hs
            · exact Or.inr ⟨a, List.mem_cons_self _ _, hk.symm⟩
            · exact Or.inl hs
          · exact Or.inr ⟨d, List.mem_cons_of_mem _ hd, hk⟩

/-! ### Helper lemmas about the scan and the returned table -/

theorem gcp_eq_some {data : RawFrame} {talib : Talib} {out : List Event}
    (h : get_candlestick_patterns data talib = some out) :
    out = drop_duplicates (sorted_detected data talib) := by
  unfold get_candlestick_patterns at h
  split at h
  · exact absurd h (by simp)
  · split at h
    · exact absurd h (by simp)
    · split at h
      · exact absurd h (by simp)
      · split at h
        · exact absurd h (by simp)
        · exact (Option.some.injEq _ _).mp h.symm

theorem mem_detected_of_mem_out {data : RawFrame} {talib : Talib}
    {out : List Event} {e : Event}
    (h : get_candlestick_patterns data talib = some out) (he : e ∈ out) :
    e ∈ detectedPatterns talib (cleanBars data) := by
  rw [gcp_eq_some h] at he
  have h1 : e ∈ sorted_detected data talib :=
    mem_of_mem_drop_duplicates_from he
  exact (List.perm_insertionSort dateLe _).mem_iff.mp h1

theorem shape_of_mem_detected {talib : Talib} {bars : List Bar} {e : Event}
    (h : e ∈ detectedPatterns talib bars) :
    ∃ pattern_name b, b ∈ bars ∧
      e = mkEvent pattern_name b e.Value ∧ e.Value ≠ 0 := by
  unfold detectedPatterns at h
  rw [List.mem_flatten] at h
  obtain ⟨l, hl, hel⟩ := h
  rw [List.mem_map] at hl
  obtain ⟨p, _, rfl⟩ := hl
  rcases htf : talib p.1 with _ | g
  · rw [htf] at hel; simp at hel
  · rw [htf] at hel
    unfold patternEvents at hel
    rw [List.mem_filterMap] at hel
    obtain ⟨bc, hbc, hbe⟩ := hel
    split at hbe
    · rename_i hnz
      have he : e = mkEvent p.2 bc.1 bc.2 := (Option.some.injEq _ _).mp hbe.symm
      have hv : e.Value = bc.2 := by rw [he]; rfl
      exact ⟨p.2, bc.1, (List.of_mem_zip hbc).1, by rw [hv]; exact he,
        by rw [hv]; exact hnz⟩
    · simp at hbe

/-! ### The claims -/

/-- C1: every event emitted by `get_candlestick_patterns` has
`Type = "Bullish"` iff its raw pattern code is positive and
`Type = "Bearish"` iff it is negative; events exist only for bars whose
code is nonzero. -/
theorem emitted_type_iff_sign (data : RawFrame) (talib : Talib)
    (out : List Event) (e : Event)
    (hout : get_candlestick_patterns data talib = some out) (he : e ∈ out) :
    (e.Type' = "Bullish" ↔ 0 < e.Value) ∧
    (e.Type' = "Bearish" ↔ e.Value < 0) ∧ e.Value ≠ 0 := by
  obtain ⟨pn, b, _, hshape, hnz⟩ :=
    shape_of_mem_detected (mem_detected_of_mem_out hout he)
  have ht : e.Type' = (if 0 < e.Value then "Bullish" else "Bearish") := by
    conv_lhs => rw [hshape]
    rfl
  rcases lt_trichotomy e.Value 0 with hv | hv | hv
  · rw [if_neg (lt_asymm hv)] at ht
    refine ⟨⟨fun h => ?_, fun h0 => absurd h0 (lt_asymm hv)⟩,
            ⟨fun _ => hv, fun _ => ht⟩, hnz⟩
    rw [ht] at h
    exact absurd h (by decide)
  · exact absurd hv hnz
  · rw [if_pos hv] at ht
    refine ⟨⟨fun _ => hv, fun _ => ht⟩,
            ⟨fun h => ?_, fun h0 => absurd hv (lt_asymm h0)⟩, hnz⟩
    rw [ht] at h
    exact absurd h (by decide)

unseal Rat.mul Rat.inv Rat.add Rat.sub in
/-- C1 witness: the concrete example frame produces an event with
`Type = "Bullish"`, code 100. -/
theorem emitted_type_iff_sign_witness :
    (exampleEvent.Type' = "Bullish" ↔ 0 < exampleEvent.Value) ∧
    (exampleEvent.Type' = "Bearish" ↔ exampleEvent.Value < 0) ∧
    exampleEvent.Value ≠ 0 :=
  emitted_type_iff_sign exampleFrame exampleTalib [exampleEvent] exampleEvent
    (by decide) (by decide)

/-- C2: every emitted event's `Recommendation` is the image of its `Type`
under the mapping Bullish ↦ "Consider Buy", Bearish ↦ "Consider Sell",
anything else ↦ "Neutral". -/
theorem recommendation_pure_function (data : RawFrame) (talib : Talib)
    (out : List Event) (e : Event)
    (hout : get_candlestick_patterns data talib = some out) (he : e ∈ out) :
    e.Recommendation = recommendationFor e.Type' ∧
    recommendationFor "Bullish" = "Consider Buy" ∧
    recommendationFor "Bearish" = "Consider Sell" ∧
    ∀ s : String, s ≠ "Bullish" → s ≠ "Bearish" →
      recommendationFor s = "Neutral" := by
  obtain ⟨pn, b, _, hshape, _⟩ :=
    shape_of_mem_detected (mem_detected_of_mem_out hout he)
  refine ⟨?_, by decide, by decide, ?_⟩
  · rw [hshape]
    rfl
  · intro s h1 h2
    unfold recommendationFor
    rw [if_neg h1, if_neg h2]

unseal Rat.mul Rat.inv Rat.add Rat.sub in
/-- C2 witness: instantiated at the concrete example event. -/
theorem recommendation_pure_function_witness :
    exampleEvent.Recommendation = recommendationFor exampleEvent.Type' ∧
    recommendationFor "Bullish" = "Consider Buy" ∧
    recommendationFor "Bearish" = "Consider Sell" ∧
    ∀ s : String, s ≠ "Bullish" → s ≠ "Bearish" →
      recommendationFor s = "Neutral" :=
  recommendation_pure_function exampleFrame exampleTalib [exampleEvent]
    exampleEvent (by decide) (by decide)

/-- C3: the returned event table is ordered by date ascending, and for
every (date, pattern) key only the first occurrence after sorting is
kept: each returned event is the first event with its key in the sorted
scan result, and every key occurring in the sorted scan result is still
represented. -/
theorem events_sorted_and_first_kept (data : RawFrame) (talib : Talib)
    (out : List Event)
    (hout : get_candlestick_patterns data talib = some out) :
    out.Pairwise dateLe ∧
    (∀ e ∈ out,
      (sorted_detected data talib).find?
        (fun x => decide (eventKey x = eventKey e)) = some e) ∧
    ∀ e ∈ sorted_detected data talib, ∃ d ∈ out, eventKey d = eventKey e := by
  rw [gcp_eq_some hout] at *
  refine ⟨?_, ?_, ?_⟩
  · exact List.Pairwise.sublist (drop_duplicates_from_sublist [] _)
      (List.sorted_insertionSort dateLe _)
  · intro e he
    exact find?_of_mem_drop_duplicates_from _ [] e he
  · intro e he
    rcases key_covered_drop_duplicates_from _ [] e he with h | h
    · simp at h
    · exact h

unseal Rat.mul Rat.inv Rat.add Rat.sub in
/-- C3 witness: instantiated at the concrete example frame. -/
theorem events_sorted_and_first_kept_witness :
    ([exampleEvent] : List Event).Pairwise dateLe ∧
    (∀ e ∈ [exampleEvent],
      (sorted_detected exampleFrame exampleTalib).find?
        (fun x => decide (eventKey x = eventKey e)) = some e) ∧
    ∀ e ∈ sorted_detected exampleFrame exampleTalib,
      ∃ d ∈ [exampleEvent], eventKey d = eventKey e :=
  events_sorted_and_first_kept exampleFrame exampleTalib [exampleEvent]
    (by decide)

/-- C4: when the downloaded frame is empty, or the required OHLCV columns
are missing after standardization, or fewer than 2 valid bars remain
after dropping rows with missing open/high/low/close, the function emits
no events and returns the absent result `none`. -/
theorem insufficient_data_returns_none (data : RawFrame) (talib : Talib)
    (h : data.empty = true ∨
         hasRequiredColumns (standardizeColumns data) = false ∨
         (cleanBars data).length < 2) :
    get_candlestick_patterns data talib = none := by
  unfold get_candlestick_patterns
  rcases h with h | h | h
  · simp [h]
  · cases h0 : data.empty <;> simp [h0, h]
  · cases h0 : data.empty <;>
      cases h1 : hasRequiredColumns (standardizeColumns data) <;>
        simp [h0, h1, h]

/-- C4 witness: the empty download returns `none`. -/
theorem insufficient_data_returns_none_witness :
    get_candlestick_patterns (RawFrame.mk [] []) exampleTalib = none :=
  insufficient_data_returns_none (RawFrame.mk [] []) exampleTalib
    (Or.inl (by decide))

/-- A TA-Lib engine whose every pattern function returns all zeros. -/
def zeroTalib : Talib := fun _ => some (fun o _ _ _ => o.map (fun _ => 0))

/-- C10: with at least 2 valid bars but no nonzero pattern code on any
bar across the 17 patterns, the function returns the same absent result
`none` as the failure cases, not an empty table. -/
theorem all_zero_codes_returns_none (data : RawFrame) (talib : Talib)
    (_hlen : 2 ≤ (cleanBars data).length)
    (hz : ∀ p ∈ candlestick_patterns, ∀ g, talib p.1 = some g →
      ∀ c ∈ g ((cleanBars data).map Bar.OPEN) ((cleanBars data).map Bar.HIGH)
          ((cleanBars data).map Bar.LOW) ((cleanBars data).map Bar.CLOSE),
        c = 0) :
    get_candlestick_patterns data talib = none := by
  have hdet : detectedPatterns talib (cleanBars data) = [] := by
    unfold detectedPatterns
    rw [List.flatten_eq_nil_iff]
    intro l hl
    rw [List.mem_map] at hl
    obtain ⟨p, hp, rfl⟩ := hl
    rcases htf : talib p.1 with _ | g
    · rfl
    · unfold patternEvents
      rw [List.filterMap_eq_nil_iff]
      intro bc hbc
      have hc0 : bc.2 = 0 := hz p hp g htf bc.2 (List.of_mem_zip hbc).2
      simp [hc0]
  unfold get_candlestick_patterns
  cases h0 : data.empty <;>
    cases h1 : hasRequiredColumns (standardizeColumns data) <;>
      simp [h0, h1, hdet]

/-- C10 witness: the example frame with the all-zeros engine yields
`none`. -/
theorem all_zero_codes_returns_none_witness :
    get_candlestick_patterns exampleFrame zeroTalib = none :=
  all_zero_codes_returns_none exampleFrame zeroTalib (by decide)
    (by
      intro p _ g hg c hc
      simp only [zeroTalib] at hg
      cases hg
      obtain ⟨a, _, rfl⟩ := List.mem_map.mp hc
      rfl)

unseal Rat.mul Rat.inv Rat.add Rat.sub in
/-- C5 counterexample: on a frame whose 2024-03-05 bar has CDLHAMMER code
100 and close 150.005, the emitted event does NOT carry closing price
150.01 as the claim states: the output is exactly one event whose
closing price is 150.00 (Python's `round` rounds half to even, and the
IEEE double holding 150.005 is in fact slightly below the midpoint, so
every reading of the code yields 150.0). -/
theorem hammer_example_price_counterexample :
    get_candlestick_patterns exampleFrame exampleTalib ≠
      some [{ exampleEvent with ClosingPrice := 15001 / 100 }] ∧
    get_candlestick_patterns exampleFrame exampleTalib =
      some [exampleEvent] ∧
    exampleEvent.ClosingPrice = 150 := ⟨by decide, by decide, by decide⟩

unseal Rat.mul Rat.inv Rat.add Rat.sub in
/-- C5 amended: the 2024-03-05 CDLHAMMER=100 bar with close 150.005
yields exactly one event for that (date, pattern): Pattern "Hammer",
Type "Bullish", Closing Price 150.00 (the close rounded to 2 decimal
places, half to even), Recommendation "Consider Buy". -/
theorem hammer_example_amended :
    get_candlestick_patterns exampleFrame exampleTalib =
      some [{ Date := "2024-03-05", Pattern := "Hammer", Type' := "Bullish",
              ClosingPrice := 150, Recommendation := "Consider Buy",
              Value := 100 }] := by decide

/-- The survival test of one row is exactly presence of the four price
fields. -/
theorem cleanRow_isSome (r : RawBarRow) :
    (cleanRow r).isSome =
      (r.OPEN.isSome && r.HIGH.isSome && r.LOW.isSome && r.CLOSE.isSome) := by
  unfold cleanRow
  rcases r with ⟨d, o, h, l, c, v⟩
  cases o <;> cases h <;> cases l <;> cases c <;> rfl

/-- C6: rows are dropped only for missing open/high/low/close, never for
missing volume: a raw row survives into the bar list exactly when its
four price cells are present, and replacing its volume cell by anything
(including an unconvertible/absent value) never changes whether it
survives. -/
theorem volume_never_drops_rows (data : RawFrame) (r : RawBarRow)
    (hr : r ∈ rawRows (standardizeColumns data)) :
    ((∃ b ∈ cleanBars data, cleanRow r = some b) ↔
      (r.OPEN.isSome ∧ r.HIGH.isSome ∧ r.LOW.isSome ∧ r.CLOSE.isSome)) ∧
    ∀ v : Option ℚ,
      (cleanRow { r with VOLUME := v }).isSome = (cleanRow r).isSome := by
  constructor
  · constructor
    · rintro ⟨b, _, hb⟩
      have hs : (cleanRow r).isSome = true := by rw [hb]; rfl
      rw [cleanRow_isSome] at hs
      simpa [and_assoc] using hs
    · rintro ⟨h1, h2, h3, h4⟩
      have hs : (cleanRow r).isSome = true := by
        rw [cleanRow_isSome, h1, h2, h3, h4]
        rfl
      obtain ⟨b, hb⟩ := Option.isSome_iff_exists.mp hs
      exact ⟨b, List.mem_filterMap.mpr ⟨r, hr, hb⟩, hb⟩
  · intro v
    rw [cleanRow_isSome, cleanRow_isSome]

/-- A concrete frame whose every volume cell failed numeric coercion. -/
def noVolFrame : RawFrame :=
  { dates := ["2024-03-04", "2024-03-05"]
    cols := [("Open", [some 1, some 2]), ("High", [some 1, some 2]),
             ("Low", [some 1, some 2]), ("Close", [some 1, some 2]),
             ("Volume", [none, none])] }

/-- The first raw row of `noVolFrame`: prices present, volume absent. -/
def noVolRow : RawBarRow :=
  { date := "2024-03-04", OPEN := some 1, HIGH := some 1, LOW := some 1,
    CLOSE := some 1, VOLUME := none }

/-- C6 witness: the volume-less row of the concrete frame is kept. -/
theorem volume_never_drops_rows_witness :
    ((∃ b ∈ cleanBars noVolFrame, cleanRow noVolRow = some b) ↔
      (noVolRow.OPEN.isSome ∧ noVolRow.HIGH.isSome ∧ noVolRow.LOW.isSome ∧
        noVolRow.CLOSE.isSome)) ∧
    ∀ v : Option ℚ,
      (cleanRow { noVolRow with VOLUME := v }).isSome =
        (cleanRow noVolRow).isSome :=
  volume_never_drops_rows noVolFrame noVolRow (by decide)

/-- Stripping only removes characters: membership is preserved. -/
theorem mem_of_mem_pyStrip {c : Char} {s : String}
    (h : c ∈ (pyStrip s).data) : c ∈ s.data := by
  have h1 : c ∈ ((s.data.dropWhile Char.isWhitespace).reverse.dropWhile
      Char.isWhitespace).reverse := h
  rw [List.mem_reverse] at h1
  have h2 := (List.dropWhile_sublist _).subset h1
  rw [List.mem_reverse] at h2
  exact (List.dropWhile_sublist _).subset h2

/-- Unfolding of `save_patterns_to_excel` on a present frame. -/
theorem save_patterns_to_excel_some (d : DFrame)
    (company_name ticker_symbol pfx : String) :
    save_patterns_to_excel (some d) company_name ticker_symbol pfx =
      if d.isEmpty then none
      else
        match d.insertScalar "Company" (XCell.s company_name) with
        | none => none
        | some d2 =>
            some (excelFilename pfx company_name ticker_symbol,
                  d2.dropCol "Value") := rfl

/-- C7: whenever a file is written, its name is
`<pfx>_<company>_<ticker>.xlsx` built from the sanitized company name and
sanitized ticker, and both sanitized parts contain only alphanumeric and
space characters. -/
theorem filename_format_and_sanitized (df : Option DFrame)
    (company_name ticker_symbol pfx fn : String) (saved : DFrame)
    (h : save_patterns_to_excel df company_name ticker_symbol pfx =
      some (fn, saved)) :
    fn = pfx ++ "_" ++ safe_company_name company_name ++ "_" ++
        safe_ticker_symbol ticker_symbol ++ ".xlsx" ∧
    (∀ c ∈ (safe_company_name company_name).data, c.isAlphanum ∨ c = ' ') ∧
    (∀ c ∈ (safe_ticker_symbol ticker_symbol).data, c.isAlphanum ∨ c = ' ') := by
  refine ⟨?_, ?_, ?_⟩
  · rcases df with _ | d
    · simp [save_patterns_to_excel] at h
    · rw [save_patterns_to_excel_some] at h
      split at h
      · simp at h
      · split at h
        · simp at h
        · exact (congrArg Prod.fst ((Option.some.injEq _ _).mp h)).symm
  · intro c hc
    have h1 := mem_of_mem_pyStrip hc
    have h2 := List.mem_filter.mp h1
    simpa using h2.2
  · intro c hc
    have h1 := mem_of_mem_pyStrip hc
    have h2 := List.mem_filter.mp h1
    exact Or.inl h2.2

/-- A concrete pattern table as produced by the scan (one Hammer row). -/
def exampleDF : DFrame :=
  ⟨[("Date", [XCell.s "2024-03-05"]), ("Pattern", [XCell.s "Hammer"]),
    ("Type", [XCell.s "Bullish"]), ("Closing Price", [XCell.q 150]),
    ("Recommendation", [XCell.s "Consider Buy"]),
    ("Value", [XCell.z 100])]⟩

/-- The table as persisted: Company first, Value gone. -/
def exampleSavedDF : DFrame :=
  ⟨("Company", [XCell.s "Apple Inc."]) ::
    exampleDF.cols.filter (fun c => c.1 ≠ "Value")⟩

/-- C7 witness: instantiated at a concrete save. -/
theorem filename_format_and_sanitized_witness :
    ("candlestick_patterns_Apple Inc_AAPL.xlsx" : String) =
      "candlestick_patterns" ++ "_" ++ safe_company_name "Apple Inc." ++
        "_" ++ safe_ticker_symbol "AAPL" ++ ".xlsx" ∧
    (∀ c ∈ (safe_company_name "Apple Inc.").data, c.isAlphanum ∨ c = ' ') ∧
    (∀ c ∈ (safe_ticker_symbol "AAPL").data, c.isAlphanum ∨ c = ' ') :=
  filename_format_and_sanitized (some exampleDF) "Apple Inc." "AAPL"
    "candlestick_patterns" "candlestick_patterns_Apple Inc_AAPL.xlsx"
    exampleSavedDF (by decide)

/-- C8: the persisted table is the input table with the internal `Value`
column removed and a `Company` column (the company name on every row)
inserted first; all other columns are persisted unchanged and in order. -/
theorem saved_table_columns (d : DFrame)
    (company_name ticker_symbol pfx fn : String) (saved : DFrame)
    (h : save_patterns_to_excel (some d) company_name ticker_symbol pfx =
      some (fn, saved)) :
    saved.cols =
      ("Company", List.replicate d.nrows (XCell.s company_name)) ::
        d.cols.filter (fun c => c.1 ≠ "Value") := by
  rw [save_patterns_to_excel_some] at h
  split at h
  · simp at h
  · split at h
    · simp at h
    · rename_i d2 hins
      have hs : saved = d2.dropCol "Value" :=
        (congrArg Prod.snd ((Option.some.injEq _ _).mp h)).symm
      unfold DFrame.insertScalar at hins
      split at hins
      · simp at hins
      · have hd2 : d2 = ⟨("Company", List.replicate d.nrows
            (XCell.s company_name)) :: d.cols⟩ :=
          ((Option.some.injEq _ _).mp hins).symm
        rw [hs, hd2]
        unfold DFrame.dropCol
        rw [List.filter_cons_of_pos (by simp)]

/-- C8 witness: instantiated at the concrete table. -/
theorem saved_table_columns_witness :
    exampleSavedDF.cols =
      ("Company", List.replicate exampleDF.nrows (XCell.s "Apple Inc.")) ::
        exampleDF.cols.filter (fun c => c.1 ≠ "Value") :=
  saved_table_columns exampleDF "Apple Inc." "AAPL" "candlestick_patterns"
    "candlestick_patterns_Apple Inc_AAPL.xlsx" exampleSavedDF (by decide)

/-- C9: the caller's DataFrame object is left unchanged by
`save_patterns_to_excel`: the `Company` insertion and `Value` removal hit
only the internal copy, so the heap cell the caller holds is the same
frame after the call. -/
theorem caller_frame_unchanged (h : Heap) (df : ℕ)
    (company_name ticker_symbol pfx : String) (hdf : df < h.length) :
    ((save_patterns_to_excel_heap h df company_name ticker_symbol
        pfx).1)[df]? = h[df]? := by
  unfold save_patterns_to_excel_heap
  rcases hh : h[df]? with _ | d
  · rw [List.getElem?_eq_getElem hdf] at hh
    simp at hh
  · dsimp only
    split
    · exact hh
    · split
      · rw [List.getElem?_append, if_pos hdf]
        exact hh
      · rw [List.getElem?_append, if_pos
            (by rw [List.length_set, List.length_append]; omega),
          List.getElem?_set_ne (by omega),
          List.getElem?_append, if_pos hdf]
        exact hh

/-- C9 witness: a one-object heap is unchanged at the caller's index. -/
theorem caller_frame_unchanged_witness :
    ((save_patterns_to_excel_heap [exampleDF] 0 "Apple Inc." "AAPL"
        "candlestick_patterns").1)[0]? = [exampleDF][0]? :=
  caller_frame_unchanged [exampleDF] 0 "Apple Inc." "AAPL"
    "candlestick_patterns" (by decide)

end ShareMarket
